import Mathlib

/-
Shallow embedding of the print-queue simulator
(src/queue_simulator/print_queue.py, class PrintQueueManager).

Modelling conventions:
* Python `int` priorities are `Int`; the logical clock and waiting times are `Nat`.
* `PrintJob.timestamp` (a wall-clock float set by `time.time()`) is omitted: it is
  never read by any queue operation (the explicit sort key is `(priority, waiting_time)`
  and the `dataclass(order=True)` comparison is never invoked).
* `list.sort(key=...)` in Python is a stable ascending sort; it is modelled by
  a stable ascending sort in Lean (see `_sort_queue`).
* The event log `self.history` is a list with newest entries appended at the end,
  as in the source.  The `extra_data` dict merged into an entry is modelled by the
  `ExtraData` sum (no extra keys / tick keys / batch keys).
* `dequeue_job`'s condition-variable wait loop `while not self._shutdown and
  self.is_empty(): self.condition.wait()` re-checks exactly the predicate
  `self._shutdown or self.is_empty()`; in a sequential embedding the state cannot
  change between the checks, so the loop degenerates to that predicate test,
  which is the test the source performs right after the loop.
* Lock acquisition order is modelled separately (`LockOp`, `completes`): the
  source guards bodies with `with self.lock` / `with self.condition` on one
  non-reentrant `threading.Lock`; an `acquire` on a held lock blocks forever.
-/

inductive JobStatus where
  | PENDING
  | PRINTING
  | COMPLETED
  | EXPIRED
deriving DecidableEq, Repr

def JobStatus.value : JobStatus → String
  | .PENDING => "Pending"
  | .PRINTING => "Printing"
  | .COMPLETED => "Completed"
  | .EXPIRED => "Expired"

structure PrintJob where
  priority : Int
  waiting_time : Nat
  user_id : String
  job_id : String
  status : JobStatus
deriving DecidableEq, Repr

/-- PrintJob.__str__ from the source. -/
def PrintJob.str (j : PrintJob) : String :=
  "Job " ++ j.job_id ++ " (User: " ++ j.user_id ++ ") - Priority: " ++
    toString j.priority ++ ", Waiting: " ++ toString j.waiting_time ++
    "s, Status: " ++ j.status.value

/-- The optional `extra_data` dict merged into a log entry by `_log_event`. -/
inductive ExtraData where
  | none
  | tickData (current_time : Nat) (expired_jobs : List String)
  | batchData (success : Nat) (failed : Nat)
deriving DecidableEq, Repr

structure LogEntry where
  timestamp : Nat
  event : String
  job_id : Option String
  queue_size : Nat
  queue_state : List String
  extra : ExtraData
deriving DecidableEq, Repr

/-- The `{"success": _, "failed": _}` dict returned by
`handle_simultaneous_submissions`. -/
structure BatchResult where
  success : Nat
  failed : Nat
deriving DecidableEq, Repr

/-- One entry of the `jobs` list passed to `handle_simultaneous_submissions`:
a dict with keys `user_id`, `job_id`, `priority`. -/
structure JobRequest where
  user_id : String
  job_id : String
  priority : Int
deriving DecidableEq, Repr

structure PrintQueueManager where
  capacity : Nat
  aging_interval : Nat
  expiry_time : Nat
  queue : List PrintJob
  history : List LogEntry
  _shutdown : Bool
  current_time : Nat
deriving DecidableEq, Repr

/-- Embeds `PrintQueueManager.__init__` (defaults in the source: capacity=10,
aging_interval=5, expiry_time=30). -/
def PrintQueueManager.new (capacity aging_interval expiry_time : Nat) :
    PrintQueueManager :=
  { capacity := capacity
    aging_interval := aging_interval
    expiry_time := expiry_time
    queue := []
    history := []
    _shutdown := false
    current_time := 0 }

def PrintQueueManager.is_empty (m : PrintQueueManager) : Bool :=
  m.queue.length == 0

def PrintQueueManager.is_full (m : PrintQueueManager) : Bool :=
  decide (m.queue.length ≥ m.capacity)

/-- Embeds `_log_event`: appends one entry snapshotting the current queue. -/
def PrintQueueManager._log_event (m : PrintQueueManager) (event_type : String)
    (job_id : Option String) (extra_data : ExtraData) : PrintQueueManager :=
  { m with history := m.history ++
      [{ timestamp := m.current_time
         event := event_type
         job_id := job_id
         queue_size := m.queue.length
         queue_state := m.queue.map PrintJob.str
         extra := extra_data }] }

/-- The comparison induced by the sort key `lambda x: (x.priority, x.waiting_time)`
in `_sort_queue`: ascending lexicographic on the pair. -/
def jobLe (a b : PrintJob) : Bool :=
  decide (a.priority < b.priority) ||
    (a.priority == b.priority && decide (a.waiting_time ≤ b.waiting_time))

/-- The same comparison as a decidable relation, for the sort. -/
def jobLeP (a b : PrintJob) : Prop := jobLe a b = true

instance : DecidableRel jobLeP := fun a b =>
  inferInstanceAs (Decidable (jobLe a b = true))

/-- Embeds `_sort_queue`, that is `self.queue.sort(key=lambda x: (x.priority, x.waiting_time))`.
Python's `list.sort` is a stable ascending sort; `List.insertionSort` with an
ordering that is total on the sort key is also stable (an element is inserted
before every element it ties with, which preserves the original relative order
of ties), so both produce the same output list. -/
def PrintQueueManager._sort_queue (m : PrintQueueManager) : PrintQueueManager :=
  { m with queue := m.queue.insertionSort jobLeP }

def PrintQueueManager.enqueue_job (m : PrintQueueManager)
    (user_id job_id : String) (priority : Int) : PrintQueueManager × Bool :=
  if m.is_full then (m, false)
  else
    let new_job : PrintJob :=
      { priority := priority
        waiting_time := 0
        user_id := user_id
        job_id := job_id
        status := JobStatus.PENDING }
    let m1 := { m with queue := m.queue ++ [new_job] }
    let m2 := m1._sort_queue
    let m3 := m2._log_event "enqueue" (some job_id) ExtraData.none
    (m3, true)

def PrintQueueManager.dequeue_job (m : PrintQueueManager) :
    PrintQueueManager × Option PrintJob :=
  if m._shutdown || m.is_empty then (m, none)
  else
    match m.queue with
    | [] => (m, none)
    | job :: rest =>
      let job1 := { job with status := JobStatus.PRINTING }
      let m1 := { m with queue := rest }
      let m2 := m1._log_event "dequeue" (some job1.job_id) ExtraData.none
      (m2, some job1)

/-- The loop body of `apply_priority_aging`: jobs whose waiting_time is a multiple
of the aging interval get `priority = max(0, priority - 1)`. -/
def ageJob (aging_interval : Nat) (job : PrintJob) : PrintJob :=
  if job.waiting_time % aging_interval == 0 then
    { job with priority := max 0 (job.priority - 1) }
  else job

def PrintQueueManager.apply_priority_aging (m : PrintQueueManager) :
    PrintQueueManager :=
  let m1 := { m with queue := m.queue.map (ageJob m.aging_interval) }
  let m2 := m1._sort_queue
  m2._log_event "aging" Option.none ExtraData.none

/-- The loop body of `remove_expired_jobs`; the accumulator carries the manager
(whose queue is reassigned only after the loop, so each "expire" log entry still
snapshots the full old queue), the expired list and the remaining list. -/
def expireStep (acc : PrintQueueManager × List PrintJob × List PrintJob)
    (job : PrintJob) : PrintQueueManager × List PrintJob × List PrintJob :=
  if decide (job.waiting_time > acc.1.expiry_time) then
    let job1 := { job with status := JobStatus.EXPIRED }
    (acc.1._log_event "expire" (some job1.job_id) ExtraData.none,
      acc.2.1 ++ [job1], acc.2.2)
  else
    (acc.1, acc.2.1, acc.2.2 ++ [job])

def PrintQueueManager.remove_expired_jobs (m : PrintQueueManager) :
    PrintQueueManager × List PrintJob :=
  let acc := m.queue.foldl expireStep (m, [], [])
  ({ acc.1 with queue := acc.2.2 }, acc.2.1)

def PrintQueueManager.tick (m : PrintQueueManager) : PrintQueueManager :=
  let m1 := { m with current_time := m.current_time + 1 }
  let q2 := m1.queue.map (fun job => { job with waiting_time := job.waiting_time + 1 })
  let m2 := { m1 with queue := q2 }
  let m3 := if m2.current_time % m2.aging_interval == 0 then
      m2.apply_priority_aging
    else m2
  let r := m3.remove_expired_jobs
  r.1._log_event "tick" Option.none
    (ExtraData.tickData r.1.current_time (r.2.map PrintJob.job_id))

/-- The loop body of `handle_simultaneous_submissions`. -/
def batchStep (acc : PrintQueueManager × BatchResult) (job : JobRequest) :
    PrintQueueManager × BatchResult :=
  let r := acc.1.enqueue_job job.user_id job.job_id job.priority
  if r.2 then (r.1, { acc.2 with success := acc.2.success + 1 })
  else (r.1, { acc.2 with failed := acc.2.failed + 1 })

def PrintQueueManager.handle_simultaneous_submissions (m : PrintQueueManager)
    (jobs : List JobRequest) : PrintQueueManager × BatchResult :=
  let acc := jobs.foldl batchStep (m, { success := 0, failed := 0 })
  (acc.1._log_event "batch_submit" Option.none
      (ExtraData.batchData acc.2.success acc.2.failed),
    acc.2)

/-- Embeds `shutdown`: sets the terminal flag (and notifies all waiters, which has no
effect on the stored state). -/
def PrintQueueManager.shutdown (m : PrintQueueManager) : PrintQueueManager :=
  { m with _shutdown := true }

/-- The operations of the public driving interface, for reachability. -/
inductive Op where
  | enqueue (user_id job_id : String) (priority : Int)
  | dequeue
  | tick
  | batch (jobs : List JobRequest)
  | shutdown

def PrintQueueManager.applyOp (m : PrintQueueManager) : Op → PrintQueueManager
  | .enqueue u j p => (m.enqueue_job u j p).1
  | .dequeue => m.dequeue_job.1
  | .tick => m.tick
  | .batch jobs => (m.handle_simultaneous_submissions jobs).1
  | .shutdown => m.shutdown

def PrintQueueManager.run (m : PrintQueueManager) (ops : List Op) :
    PrintQueueManager :=
  ops.foldl PrintQueueManager.applyOp m

/-- States reached from a fresh instance by some sequence of operations. -/
def Reachable (m : PrintQueueManager) : Prop :=
  ∃ capacity aging_interval expiry_time ops,
    (PrintQueueManager.new capacity aging_interval expiry_time).run ops = m

/-
Lock-acquisition model.  All guarded bodies in the source use the single
non-reentrant `threading.Lock` stored in `self.lock` (the `threading.Condition`
wraps the same lock object).  `completes ops held` decides whether a thread
performing `ops` starting with `held` nested acquisitions runs to completion:
acquiring an already-held non-reentrant lock blocks forever.
-/
inductive LockOp where
  | acquire
  | release
deriving DecidableEq, Repr

def completes : List LockOp → Nat → Bool
  | [], _ => true
  | LockOp.acquire :: rest, 0 => completes rest 1
  | LockOp.acquire :: _, _ + 1 => false
  | LockOp.release :: rest, held => completes rest (held - 1)

/-- enqueue_job: `with self.condition:` around the whole body. -/
def enqueueLockOps : List LockOp := [LockOp.acquire, LockOp.release]

/-- dequeue_job on a non-empty or shut-down queue: one `with self.condition:`. -/
def dequeueLockOps : List LockOp := [LockOp.acquire, LockOp.release]

/-- apply_priority_aging called on its own: `with self.lock:`. -/
def agingLockOps : List LockOp := [LockOp.acquire, LockOp.release]

/-- remove_expired_jobs called on its own: `with self.lock:`. -/
def removeExpiredLockOps : List LockOp := [LockOp.acquire, LockOp.release]

/-- shutdown: `with self.condition:`. -/
def shutdownLockOps : List LockOp := [LockOp.acquire, LockOp.release]

/-- tick: `with self.lock:` around a body that calls `apply_priority_aging`
(when the new clock is a multiple of the aging interval) and, unconditionally,
`remove_expired_jobs` — each of which does `with self.lock:` again. -/
def tickLockOps (agingTriggered : Bool) : List LockOp :=
  [LockOp.acquire] ++ (if agingTriggered then agingLockOps else []) ++
    removeExpiredLockOps ++ [LockOp.release]

/-
Helper lemmas about the embedded operations.
-/

theorem log_event_queue (m : PrintQueueManager) (e : String) (j : Option String)
    (d : ExtraData) : (m._log_event e j d).queue = m.queue := rfl

theorem log_event_capacity (m : PrintQueueManager) (e : String) (j : Option String)
    (d : ExtraData) : (m._log_event e j d).capacity = m.capacity := rfl

theorem log_event_expiry (m : PrintQueueManager) (e : String) (j : Option String)
    (d : ExtraData) : (m._log_event e j d).expiry_time = m.expiry_time := rfl

theorem log_event_aging (m : PrintQueueManager) (e : String) (j : Option String)
    (d : ExtraData) : (m._log_event e j d).aging_interval = m.aging_interval := rfl

theorem log_event_time (m : PrintQueueManager) (e : String) (j : Option String)
    (d : ExtraData) : (m._log_event e j d).current_time = m.current_time := rfl

theorem log_event_shutdown_flag (m : PrintQueueManager) (e : String)
    (j : Option String) (d : ExtraData) :
    (m._log_event e j d)._shutdown = m._shutdown := rfl

theorem log_event_history (m : PrintQueueManager) (e : String) (j : Option String)
    (d : ExtraData) : ∃ entry : LogEntry, entry.event = e ∧ entry.extra = d ∧
      (m._log_event e j d).history = m.history ++ [entry] :=
  ⟨_, rfl, rfl, rfl⟩

theorem jobLe_trans (a b c : PrintJob) (hab : jobLe a b = true)
    (hbc : jobLe b c = true) : jobLe a c = true := by
  simp only [jobLe, Bool.or_eq_true, Bool.and_eq_true, decide_eq_true_eq,
    beq_iff_eq] at hab hbc ⊢
  omega

theorem jobLe_total (a b : PrintJob) : (jobLe a b || jobLe b a) = true := by
  simp only [jobLe, Bool.or_eq_true, Bool.and_eq_true, decide_eq_true_eq,
    beq_iff_eq]
  omega

/-- The ordering invariant that the code actually maintains: the queue is
sorted ascending in the lexicographic key (priority, waiting_time). -/
def SortedQueue (m : PrintQueueManager) : Prop :=
  m.queue.Pairwise jobLeP

instance : IsTrans PrintJob jobLeP :=
  ⟨jobLe_trans⟩

instance : IsTotal PrintJob jobLeP :=
  ⟨fun a b => by
    have h := jobLe_total a b
    rw [Bool.or_eq_true] at h
    exact h⟩

theorem sortedQueue_sort (m : PrintQueueManager) : SortedQueue m._sort_queue :=
  List.sorted_insertionSort jobLeP m.queue

theorem enqueue_full {m : PrintQueueManager} (u j : String) (p : Int)
    (h : m.capacity ≤ m.queue.length) : m.enqueue_job u j p = (m, false) := by
  have hf : m.is_full = true := by
    simp only [PrintQueueManager.is_full, decide_eq_true_eq]
    exact h
  simp [PrintQueueManager.enqueue_job, hf]

theorem enqueue_not_full {m : PrintQueueManager} (u j : String) (p : Int)
    (h : m.queue.length < m.capacity) :
    m.enqueue_job u j p =
      (({ m with queue := (m.queue ++
            [({ priority := p, waiting_time := 0, user_id := u, job_id := j,
                status := JobStatus.PENDING } : PrintJob)]).insertionSort jobLeP })._log_event
          "enqueue" (some j) ExtraData.none, true) := by
  have hf : m.is_full = false := by
    simp only [PrintQueueManager.is_full, decide_eq_false_iff_not]
    omega
  simp [PrintQueueManager.enqueue_job, hf, PrintQueueManager._sort_queue]

theorem dequeue_shutdown {m : PrintQueueManager} (h : m._shutdown = true) :
    m.dequeue_job = (m, none) := by
  simp [PrintQueueManager.dequeue_job, h]

theorem dequeue_empty {m : PrintQueueManager} (h : m.queue = []) :
    m.dequeue_job = (m, none) := by
  simp [PrintQueueManager.dequeue_job, PrintQueueManager.is_empty, h]

theorem dequeue_cons {m : PrintQueueManager} {job : PrintJob} {rest : List PrintJob}
    (h : m.queue = job :: rest) (hs : m._shutdown = false) :
    m.dequeue_job =
      (({ m with queue := rest })._log_event "dequeue" (some job.job_id)
          ExtraData.none,
        some { job with status := JobStatus.PRINTING }) := by
  simp [PrintQueueManager.dequeue_job, PrintQueueManager.is_empty, h, hs]

theorem expire_fold (l : List PrintJob) :
    ∀ (m : PrintQueueManager) (exp rem : List PrintJob),
    (l.foldl expireStep (m, exp, rem)).1.queue = m.queue ∧
    (l.foldl expireStep (m, exp, rem)).1.capacity = m.capacity ∧
    (l.foldl expireStep (m, exp, rem)).1.expiry_time = m.expiry_time ∧
    (l.foldl expireStep (m, exp, rem)).1.aging_interval = m.aging_interval ∧
    (l.foldl expireStep (m, exp, rem)).1.current_time = m.current_time ∧
    (l.foldl expireStep (m, exp, rem)).1._shutdown = m._shutdown ∧
    (l.foldl expireStep (m, exp, rem)).2.2 =
      rem ++ l.filter (fun job => decide (job.waiting_time ≤ m.expiry_time)) ∧
    (l.foldl expireStep (m, exp, rem)).2.1 =
      exp ++ (l.filter (fun job => decide (m.expiry_time < job.waiting_time))).map
        (fun job => { job with status := JobStatus.EXPIRED }) := by
  induction l with
  | nil => intro m exp rem; simp
  | cons job l ih =>
    intro m exp rem
    by_cases h : job.waiting_time ≤ m.expiry_time
    · have hc : decide (job.waiting_time > m.expiry_time) = false := by
        simp only [decide_eq_false_iff_not]
        omega
      have hstep : expireStep (m, exp, rem) job = (m, exp, rem ++ [job]) := by
        simp [expireStep, hc]
      rw [List.foldl_cons, hstep]
      have hr := ih m exp (rem ++ [job])
      refine ⟨hr.1, hr.2.1, hr.2.2.1, hr.2.2.2.1, hr.2.2.2.2.1, hr.2.2.2.2.2.1, ?_, ?_⟩
      · rw [hr.2.2.2.2.2.2.1]
        simp [h]
      · rw [hr.2.2.2.2.2.2.2]
        have : decide (m.expiry_time < job.waiting_time) = false := by
          simp only [decide_eq_false_iff_not]
          omega
        simp [this]
    · have hc : decide (job.waiting_time > m.expiry_time) = true := by
        simp only [decide_eq_true_eq]
        omega
      have hstep : expireStep (m, exp, rem) job =
          (m._log_event "expire" (some job.job_id) ExtraData.none,
            exp ++ [{ job with status := JobStatus.EXPIRED }], rem) := by
        simp [expireStep, hc]
      rw [List.foldl_cons, hstep]
      have hr := ih (m._log_event "expire" (some job.job_id) ExtraData.none)
        (exp ++ [{ job with status := JobStatus.EXPIRED }]) rem
      simp only [log_event_queue, log_event_capacity, log_event_expiry,
        log_event_aging, log_event_time, log_event_shutdown_flag] at hr
      refine ⟨hr.1, hr.2.1, hr.2.2.1, hr.2.2.2.1, hr.2.2.2.2.1, hr.2.2.2.2.2.1, ?_, ?_⟩
      · rw [hr.2.2.2.2.2.2.1]
        have : decide (job.waiting_time ≤ m.expiry_time) = false := by
          simp only [decide_eq_false_iff_not]
          omega
        simp [this]
      · rw [hr.2.2.2.2.2.2.2]
        have : decide (m.expiry_time < job.waiting_time) = true := by
          simp only [decide_eq_true_eq]
          omega
        simp [this]

theorem remove_expired_queue (m : PrintQueueManager) :
    (m.remove_expired_jobs).1.queue =
      m.queue.filter (fun job => decide (job.waiting_time ≤ m.expiry_time)) := by
  have h := expire_fold m.queue m [] []
  simp only [PrintQueueManager.remove_expired_jobs]
  rw [h.2.2.2.2.2.2.1]
  simp

theorem remove_expired_fields (m : PrintQueueManager) :
    (m.remove_expired_jobs).1.capacity = m.capacity ∧
    (m.remove_expired_jobs).1.expiry_time = m.expiry_time ∧
    (m.remove_expired_jobs).1.aging_interval = m.aging_interval ∧
    (m.remove_expired_jobs).1.current_time = m.current_time ∧
    (m.remove_expired_jobs).1._shutdown = m._shutdown := by
  have h := expire_fold m.queue m [] []
  simp only [PrintQueueManager.remove_expired_jobs]
  exact ⟨h.2.1, h.2.2.1, h.2.2.2.1, h.2.2.2.2.1, h.2.2.2.2.2.1⟩

theorem aging_queue (m : PrintQueueManager) :
    (m.apply_priority_aging).queue =
      (m.queue.map (ageJob m.aging_interval)).insertionSort jobLeP := rfl

theorem aging_capacity (m : PrintQueueManager) :
    (m.apply_priority_aging).capacity = m.capacity := rfl

theorem aging_expiry (m : PrintQueueManager) :
    (m.apply_priority_aging).expiry_time = m.expiry_time := rfl

theorem aging_interval_eq (m : PrintQueueManager) :
    (m.apply_priority_aging).aging_interval = m.aging_interval := rfl

theorem aging_time (m : PrintQueueManager) :
    (m.apply_priority_aging).current_time = m.current_time := rfl

theorem aging_shutdown_flag (m : PrintQueueManager) :
    (m.apply_priority_aging)._shutdown = m._shutdown := rfl

theorem remove_expired_capacity (m : PrintQueueManager) :
    (m.remove_expired_jobs).1.capacity = m.capacity :=
  (remove_expired_fields m).1

theorem remove_expired_expiry (m : PrintQueueManager) :
    (m.remove_expired_jobs).1.expiry_time = m.expiry_time :=
  (remove_expired_fields m).2.1

theorem remove_expired_interval (m : PrintQueueManager) :
    (m.remove_expired_jobs).1.aging_interval = m.aging_interval :=
  (remove_expired_fields m).2.2.1

theorem remove_expired_time (m : PrintQueueManager) :
    (m.remove_expired_jobs).1.current_time = m.current_time :=
  (remove_expired_fields m).2.2.2.1

theorem remove_expired_shutdown_flag (m : PrintQueueManager) :
    (m.remove_expired_jobs).1._shutdown = m._shutdown :=
  (remove_expired_fields m).2.2.2.2

/-- Decomposition of one tick's effect on the stored queue: increment every
waiting time, age and re-sort when the new clock is a multiple of the aging
interval, then drop jobs whose waiting time strictly exceeds the expiry time. -/
theorem tick_queue (m : PrintQueueManager) :
    (m.tick).queue =
      (if (m.current_time + 1) % m.aging_interval == 0 then
          ((m.queue.map
              (fun job => { job with waiting_time := job.waiting_time + 1 })).map
            (ageJob m.aging_interval)).insertionSort jobLeP
        else
          m.queue.map
            (fun job => { job with waiting_time := job.waiting_time + 1 })).filter
        (fun job => decide (job.waiting_time ≤ m.expiry_time)) := by
  cases hb : (m.current_time + 1) % m.aging_interval == 0 with
  | true =>
    simp [PrintQueueManager.tick, hb, log_event_queue, remove_expired_queue,
      aging_queue, aging_expiry]
  | false =>
    simp [PrintQueueManager.tick, hb, log_event_queue, remove_expired_queue]

theorem tick_capacity (m : PrintQueueManager) : (m.tick).capacity = m.capacity := by
  cases hb : (m.current_time + 1) % m.aging_interval == 0 with
  | true =>
    simp [PrintQueueManager.tick, hb, log_event_capacity, remove_expired_capacity,
      aging_capacity]
  | false =>
    simp [PrintQueueManager.tick, hb, log_event_capacity, remove_expired_capacity]

theorem tick_expiry (m : PrintQueueManager) : (m.tick).expiry_time = m.expiry_time := by
  cases hb : (m.current_time + 1) % m.aging_interval == 0 with
  | true =>
    simp [PrintQueueManager.tick, hb, log_event_expiry, remove_expired_expiry,
      aging_expiry]
  | false =>
    simp [PrintQueueManager.tick, hb, log_event_expiry, remove_expired_expiry]

theorem tick_interval (m : PrintQueueManager) :
    (m.tick).aging_interval = m.aging_interval := by
  cases hb : (m.current_time + 1) % m.aging_interval == 0 with
  | true =>
    simp [PrintQueueManager.tick, hb, log_event_aging, remove_expired_interval,
      aging_interval_eq]
  | false =>
    simp [PrintQueueManager.tick, hb, log_event_aging, remove_expired_interval]

theorem tick_time (m : PrintQueueManager) :
    (m.tick).current_time = m.current_time + 1 := by
  cases hb : (m.current_time + 1) % m.aging_interval == 0 with
  | true =>
    simp [PrintQueueManager.tick, hb, log_event_time, remove_expired_time,
      aging_time]
  | false =>
    simp [PrintQueueManager.tick, hb, log_event_time, remove_expired_time]

theorem tick_shutdown_flag (m : PrintQueueManager) :
    (m.tick)._shutdown = m._shutdown := by
  cases hb : (m.current_time + 1) % m.aging_interval == 0 with
  | true =>
    simp [PrintQueueManager.tick, hb, log_event_shutdown_flag,
      remove_expired_shutdown_flag, aging_shutdown_flag]
  | false =>
    simp [PrintQueueManager.tick, hb, log_event_shutdown_flag,
      remove_expired_shutdown_flag]

theorem jobLe_inc (a b : PrintJob) (h : jobLe a b = true) :
    jobLe { a with waiting_time := a.waiting_time + 1 }
      { b with waiting_time := b.waiting_time + 1 } = true := by
  simp only [jobLe, Bool.or_eq_true, Bool.and_eq_true, decide_eq_true_eq,
    beq_iff_eq] at h ⊢
  omega

theorem sortedQueue_tick (m : PrintQueueManager) (h : SortedQueue m) :
    SortedQueue m.tick := by
  unfold SortedQueue
  rw [tick_queue]
  cases hb : (m.current_time + 1) % m.aging_interval == 0 with
  | true =>
    simp only [eq_self_iff_true, if_true]
    exact List.Pairwise.sublist (List.filter_sublist _)
      (List.sorted_insertionSort jobLeP _)
  | false =>
    simp only [Bool.false_eq_true, if_false]
    refine List.Pairwise.sublist (List.filter_sublist _) ?_
    rw [List.pairwise_map]
    exact h.imp (fun hab => jobLe_inc _ _ hab)

theorem sortedQueue_enqueue (m : PrintQueueManager) (u j : String) (p : Int)
    (h : SortedQueue m) : SortedQueue (m.enqueue_job u j p).1 := by
  rcases Nat.lt_or_ge m.queue.length m.capacity with hlt | hge
  · rw [enqueue_not_full u j p hlt]
    exact List.sorted_insertionSort jobLeP _
  · rw [enqueue_full u j p hge]
    exact h

theorem sortedQueue_dequeue (m : PrintQueueManager) (h : SortedQueue m) :
    SortedQueue m.dequeue_job.1 := by
  cases hs : m._shutdown with
  | true => rw [dequeue_shutdown hs]; exact h
  | false =>
    cases hq : m.queue with
    | nil => rw [dequeue_empty hq]; exact h
    | cons job rest =>
      rw [dequeue_cons hq hs]
      unfold SortedQueue at h ⊢
      rw [hq] at h
      exact (List.pairwise_cons.mp h).2

theorem sortedQueue_batch_fold (jobs : List JobRequest) :
    ∀ (m : PrintQueueManager) (r : BatchResult), SortedQueue m →
      SortedQueue (jobs.foldl batchStep (m, r)).1 := by
  induction jobs with
  | nil => intro m r h; exact h
  | cons job jobs ih =>
    intro m r h
    rw [List.foldl_cons]
    rcases Nat.lt_or_ge m.queue.length m.capacity with hlt | hge
    · have hs := sortedQueue_enqueue m job.user_id job.job_id job.priority h
      have hflag : (m.enqueue_job job.user_id job.job_id job.priority).2 = true := by
        rw [enqueue_not_full job.user_id job.job_id job.priority hlt]
      simp only [batchStep, hflag, if_true]
      exact ih _ _ hs
    · have heq := enqueue_full job.user_id job.job_id job.priority hge
      simp [batchStep, heq]
      exact ih _ _ h

theorem sortedQueue_applyOp (m : PrintQueueManager) (op : Op)
    (h : SortedQueue m) : SortedQueue (m.applyOp op) := by
  cases op with
  | enqueue u j p => exact sortedQueue_enqueue m u j p h
  | dequeue => exact sortedQueue_dequeue m h
  | tick => exact sortedQueue_tick m h
  | batch jobs =>
    show SortedQueue (m.handle_simultaneous_submissions jobs).1
    unfold SortedQueue PrintQueueManager.handle_simultaneous_submissions
    rw [log_event_queue]
    exact sortedQueue_batch_fold jobs m _ h
  | shutdown => exact h

theorem run_preserves {P : PrintQueueManager → Prop}
    (hstep : ∀ m op, P m → P (m.applyOp op)) :
    ∀ (ops : List Op) (m : PrintQueueManager), P m → P (m.run ops) := by
  intro ops
  induction ops with
  | nil => intro m h; exact h
  | cons op ops ih =>
    intro m h
    exact ih (m.applyOp op) (hstep m op h)

theorem length_enqueue (m : PrintQueueManager) (u j : String) (p : Int)
    (h : m.queue.length ≤ m.capacity) :
    (m.enqueue_job u j p).1.queue.length ≤ (m.enqueue_job u j p).1.capacity := by
  rcases Nat.lt_or_ge m.queue.length m.capacity with hlt | hge
  · rw [enqueue_not_full u j p hlt]
    rw [log_event_queue, log_event_capacity]
    show ((m.queue ++ _).insertionSort jobLeP).length ≤ m.capacity
    rw [List.length_insertionSort, List.length_append]
    simpa using hlt
  · rw [enqueue_full u j p hge]
    exact h

theorem length_batch_fold (jobs : List JobRequest) :
    ∀ (m : PrintQueueManager) (r : BatchResult),
      m.queue.length ≤ m.capacity →
      (jobs.foldl batchStep (m, r)).1.queue.length ≤
        (jobs.foldl batchStep (m, r)).1.capacity := by
  induction jobs with
  | nil => intro m r h; exact h
  | cons job jobs ih =>
    intro m r h
    rw [List.foldl_cons]
    rcases Nat.lt_or_ge m.queue.length m.capacity with hlt | hge
    · have hflag : (m.enqueue_job job.user_id job.job_id job.priority).2 = true := by
        rw [enqueue_not_full job.user_id job.job_id job.priority hlt]
      have hlen := length_enqueue m job.user_id job.job_id job.priority h
      simp only [batchStep, hflag, if_true]
      exact ih _ _ hlen
    · have heq := enqueue_full job.user_id job.job_id job.priority hge
      simp [batchStep, heq]
      exact ih _ _ h

theorem length_applyOp (m : PrintQueueManager) (op : Op)
    (h : m.queue.length ≤ m.capacity) :
    (m.applyOp op).queue.length ≤ (m.applyOp op).capacity := by
  cases op with
  | enqueue u j p => exact length_enqueue m u j p h
  | dequeue =>
    cases hs : m._shutdown with
    | true => rw [PrintQueueManager.applyOp, dequeue_shutdown hs]; exact h
    | false =>
      cases hq : m.queue with
      | nil => rw [PrintQueueManager.applyOp, dequeue_empty hq]; exact h
      | cons job rest =>
        rw [PrintQueueManager.applyOp, dequeue_cons hq hs]
        rw [log_event_queue, log_event_capacity]
        show rest.length ≤ m.capacity
        have : m.queue.length = rest.length + 1 := by rw [hq]; rfl
        omega
  | tick =>
    show (m.tick).queue.length ≤ (m.tick).capacity
    rw [tick_capacity, tick_queue]
    cases hb : (m.current_time + 1) % m.aging_interval == 0 with
    | true =>
      simp only [eq_self_iff_true, if_true]
      calc (List.filter _ _).length ≤ _ := List.length_filter_le _ _
        _ = m.queue.length := by rw [List.length_insertionSort, List.length_map, List.length_map]
        _ ≤ m.capacity := h
    | false =>
      simp only [Bool.false_eq_true, if_false]
      calc (List.filter _ _).length ≤ _ := List.length_filter_le _ _
        _ = m.queue.length := List.length_map _ _
        _ ≤ m.capacity := h
  | batch jobs =>
    show (m.handle_simultaneous_submissions jobs).1.queue.length ≤
      (m.handle_simultaneous_submissions jobs).1.capacity
    unfold PrintQueueManager.handle_simultaneous_submissions
    rw [log_event_queue, log_event_capacity]
    exact length_batch_fold jobs m _ h
  | shutdown => exact h

theorem enqueue_length {m : PrintQueueManager} (u j : String) (p : Int)
    (h : m.queue.length < m.capacity) :
    (m.enqueue_job u j p).1.queue.length = m.queue.length + 1 := by
  rw [enqueue_not_full u j p h, log_event_queue]
  dsimp only
  rw [List.length_insertionSort, List.length_append]
  rfl

theorem enqueue_capacity {m : PrintQueueManager} (u j : String) (p : Int)
    (h : m.queue.length < m.capacity) :
    (m.enqueue_job u j p).1.capacity = m.capacity := by
  rw [enqueue_not_full u j p h]
  rfl

theorem enqueue_ids {m : PrintQueueManager} (u j : String) (p : Int)
    (h : m.queue.length < m.capacity) :
    ((m.enqueue_job u j p).1.queue.map PrintJob.job_id).Perm
      (m.queue.map PrintJob.job_id ++ [j]) := by
  rw [enqueue_not_full u j p h, log_event_queue]
  dsimp only
  refine (List.Perm.map PrintJob.job_id (List.perm_insertionSort jobLeP _)).trans ?_
  simp only [List.map_append, List.map_cons, List.map_nil]
  exact List.Perm.refl _

theorem enqueue_history {m : PrintQueueManager} (u j : String) (p : Int)
    (h : m.queue.length < m.capacity) :
    ∃ e : LogEntry, e.event = "enqueue" ∧
      (m.enqueue_job u j p).1.history = m.history ++ [e] := by
  rw [enqueue_not_full u j p h]
  exact ⟨_, rfl, rfl⟩

theorem batch_fold_full (jobs : List JobRequest) :
    ∀ (m : PrintQueueManager) (s f : Nat), m.capacity ≤ m.queue.length →
      jobs.foldl batchStep (m, ⟨s, f⟩) = (m, ⟨s, f + jobs.length⟩) := by
  induction jobs with
  | nil => intro m s f _; simp
  | cons job jobs ih =>
    intro m s f h
    have heq := enqueue_full job.user_id job.job_id job.priority h
    have hstep : batchStep (m, ⟨s, f⟩) job = (m, ⟨s, f + 1⟩) := by
      simp [batchStep, heq]
    rw [List.foldl_cons, hstep, ih m s (f + 1) h]
    have h2 : f + 1 + jobs.length = f + (job :: jobs).length := by
      simp only [List.length_cons]
      omega
    rw [h2]

theorem batch_fold_spec (jobs : List JobRequest) :
    ∀ (m : PrintQueueManager) (s f : Nat),
      (jobs.foldl batchStep (m, ⟨s, f⟩)).2.success =
        s + min jobs.length (m.capacity - m.queue.length) ∧
      (jobs.foldl batchStep (m, ⟨s, f⟩)).2.failed =
        f + (jobs.length - min jobs.length (m.capacity - m.queue.length)) ∧
      ((jobs.foldl batchStep (m, ⟨s, f⟩)).1.queue.map PrintJob.job_id).Perm
        (m.queue.map PrintJob.job_id ++
          (jobs.take (m.capacity - m.queue.length)).map JobRequest.job_id) ∧
      (∃ entries : List LogEntry,
        (jobs.foldl batchStep (m, ⟨s, f⟩)).1.history = m.history ++ entries ∧
        ∀ e ∈ entries, e.event = "enqueue") := by
  induction jobs with
  | nil =>
    intro m s f
    refine ⟨by simp, by simp, by simp, [], by simp, by intro e he; cases he⟩
  | cons job jobs ih =>
    intro m s f
    rcases Nat.lt_or_ge m.queue.length m.capacity with hlt | hge
    · have hflag : (m.enqueue_job job.user_id job.job_id job.priority).2 = true := by
        rw [enqueue_not_full job.user_id job.job_id job.priority hlt]
      have hstep : batchStep (m, ⟨s, f⟩) job =
          ((m.enqueue_job job.user_id job.job_id job.priority).1, ⟨s + 1, f⟩) := by
        simp [batchStep, hflag]
      have hcap := enqueue_capacity job.user_id job.job_id job.priority hlt
      have hlen := enqueue_length job.user_id job.job_id job.priority hlt
      have ihm := ih (m.enqueue_job job.user_id job.job_id job.priority).1 (s + 1) f
      rw [hcap, hlen] at ihm
      have hone : ∃ k, m.capacity - m.queue.length = k + 1 :=
        ⟨m.capacity - m.queue.length - 1, by omega⟩
      obtain ⟨k, hk⟩ := hone
      have hk1 : m.capacity - (m.queue.length + 1) = k := by omega
      rw [hk1] at ihm
      rw [List.foldl_cons, hstep]
      refine ⟨?_, ?_, ?_, ?_⟩
      · rw [ihm.1, List.length_cons, hk]
        omega
      · rw [ihm.2.1, List.length_cons, hk]
        omega
      · rw [hk, List.take_succ_cons, List.map_cons]
        refine (ihm.2.2.1).trans ?_
        refine ((enqueue_ids job.user_id job.job_id job.priority hlt).append_right
          _).trans ?_
        rw [List.append_assoc, List.singleton_append]
      · obtain ⟨e, he, hh⟩ := enqueue_history job.user_id job.job_id job.priority hlt
        obtain ⟨entries, hent, hall⟩ := ihm.2.2.2
        refine ⟨e :: entries, ?_, ?_⟩
        · rw [hent, hh]
          simp
        · intro x hx
          rcases List.mem_cons.mp hx with hx | hx
          · rw [hx]
            exact he
          · exact hall x hx
    · have hzero : m.capacity - m.queue.length = 0 := by omega
      have heq := enqueue_full job.user_id job.job_id job.priority hge
      have hstep : batchStep (m, ⟨s, f⟩) job = (m, ⟨s, f + 1⟩) := by
        simp [batchStep, heq]
      rw [List.foldl_cons, hstep, batch_fold_full jobs m s (f + 1) hge, hzero]
      refine ⟨by simp, ?_, by simp, [], by simp, by intro e he; cases he⟩
      simp only [Nat.min_zero, Nat.sub_zero, List.length_cons]
      omega

/-
Claim theorems.
-/

/-- Claim C1 counterexample: the code sorts by (priority ascending, waiting_time
ascending), not waiting_time descending.  Enqueue job A at priority 1, tick once
so A has waiting_time 1, then enqueue job B at priority 1: the queue orders B
(waiting_time 0) before A, and dequeue_job returns B although A was enqueued
first, contradicting the claimed invariant and tie-break. -/
theorem C1_counterexample :
    ((((PrintQueueManager.new 10 5 30).enqueue_job "u1" "A" 1).1.tick.enqueue_job
        "u2" "B" 1).1.queue.map (fun j => (j.job_id, j.priority, j.waiting_time)) =
      [("B", 1, 0), ("A", 1, 1)]) ∧
    ((((PrintQueueManager.new 10 5 30).enqueue_job "u1" "A" 1).1.tick.enqueue_job
        "u2" "B" 1).1.dequeue_job.2.map PrintJob.job_id = some "B") :=
  ⟨rfl, rfl⟩

/-- Claim C1 amended: for every state of PrintQueueManager reachable by any
sequence of enqueue_job, dequeue_job, tick, handle_simultaneous_submissions and
shutdown from a fresh instance, the active job sequence is sorted by priority
ascending and, among jobs of equal priority, by waiting_time ascending (the
shorter-waiting job earlier). -/
theorem C1_amended (m : PrintQueueManager) (h : Reachable m) :
    m.queue.Pairwise jobLeP := by
  obtain ⟨c, a, e, ops, rfl⟩ := h
  exact run_preserves sortedQueue_applyOp ops _ List.Pairwise.nil

/-- Witness for C1 amended at a concrete reachable state with two jobs. -/
theorem C1_amended_witness :
    ((PrintQueueManager.new 10 5 30).run
        [Op.enqueue "u1" "A" 1, Op.tick, Op.enqueue "u2" "B" 1]).queue.Pairwise
      jobLeP :=
  C1_amended _ ⟨10, 5, 30, _, rfl⟩

/-- Claim C2: in every reachable state the number of active jobs is at most
capacity, and at capacity enqueue_job returns false and leaves the whole
manager state (queue, jobs, history, clock) unchanged. -/
theorem C2_capacity (m : PrintQueueManager) (h : Reachable m) :
    m.queue.length ≤ m.capacity ∧
    ∀ (user_id job_id : String) (priority : Int),
      m.queue.length = m.capacity →
      m.enqueue_job user_id job_id priority = (m, false) := by
  constructor
  · obtain ⟨c, a, e, ops, rfl⟩ := h
    exact run_preserves length_applyOp ops _ (Nat.zero_le _)
  · intro u j p hfull
    exact enqueue_full u j p (le_of_eq hfull.symm)

/-- Witness for C2 at a reachable state of capacity 1 holding one job. -/
theorem C2_capacity_witness :
    (((PrintQueueManager.new 1 5 30).run [Op.enqueue "u" "a" 0]).queue.length ≤
      ((PrintQueueManager.new 1 5 30).run [Op.enqueue "u" "a" 0]).capacity) ∧
    (((PrintQueueManager.new 1 5 30).run [Op.enqueue "u" "a" 0]).enqueue_job
        "v" "b" 2 =
      (((PrintQueueManager.new 1 5 30).run [Op.enqueue "u" "a" 0]), false)) := by
  have h := C2_capacity ((PrintQueueManager.new 1 5 30).run [Op.enqueue "u" "a" 0])
    ⟨1, 5, 30, _, rfl⟩
  exact ⟨h.1, h.2 "v" "b" 2 rfl⟩

/-- Claim C3: expiry uses a strict comparison — remove_expired_jobs keeps
exactly the jobs with waiting_time ≤ expiry_time; and in the literal scenario
with expiry_time=10, one job enqueued and tick() called 11 times, the job is
still active after the 10th tick, the queue is empty after the 11th tick, and
the 11th tick's log entry lists the job id among the expired jobs. -/
theorem C3_expiry_boundary :
    (∀ m : PrintQueueManager, (m.remove_expired_jobs).1.queue =
      m.queue.filter (fun job => decide (job.waiting_time ≤ m.expiry_time))) ∧
    ((((PrintQueueManager.new 10 5 10).enqueue_job "user1" "doc1" 2).1.run
        (List.replicate 10 Op.tick)).queue.length = 1) ∧
    ((((PrintQueueManager.new 10 5 10).enqueue_job "user1" "doc1" 2).1.run
        (List.replicate 11 Op.tick)).queue.length = 0) ∧
    ((((PrintQueueManager.new 10 5 10).enqueue_job "user1" "doc1" 2).1.run
        (List.replicate 11 Op.tick)).history.getLast?.map
        (fun e => (e.event, e.extra)) =
      some ("tick", ExtraData.tickData 11 ["doc1"])) :=
  ⟨remove_expired_queue, rfl, rfl, rfl⟩

/-- Claim C4 counterexample: with aging_interval=5, a job enqueued at clock 2
with priority 3 reaches waiting_time 5 (a positive multiple of 5) on the tick
that sets the clock to 7, yet its priority is still 3 afterwards, because the
code gates aging on the clock, not on the job's waiting time. -/
theorem C4_counterexample :
    ((((PrintQueueManager.new 10 5 30).tick.tick).enqueue_job "u" "j" 3).1.run
        (List.replicate 5 Op.tick)).queue.map
        (fun job => (job.job_id, job.priority, job.waiting_time)) =
      [("j", 3, 5)] :=
  rfl

/-- Claim C4 amended: on a tick() call the queue becomes, up to the re-sort, the
incremented queue with the aging rule (priority reduced by exactly 1, floored
at 0, for jobs whose waiting_time is a multiple of aging_interval; every other
job unchanged) applied exactly when the new clock value is a multiple of
aging_interval, then filtered by the expiry bound. -/
theorem C4_amended (m : PrintQueueManager) :
    (m.tick).queue.Perm
      (((m.queue.map
            (fun job => { job with waiting_time := job.waiting_time + 1 })).map
          (fun job =>
            if (m.current_time + 1) % m.aging_interval == 0 then
              ageJob m.aging_interval job
            else job)).filter
        (fun job => decide (job.waiting_time ≤ m.expiry_time))) := by
  rw [tick_queue]
  cases hb : (m.current_time + 1) % m.aging_interval == 0 with
  | true =>
    simp only [eq_self_iff_true, if_true]
    exact (List.perm_insertionSort jobLeP _).filter _
  | false =>
    simp only [Bool.false_eq_true, if_false, List.map_id']
    exact List.Perm.refl _

/-- Claim C5: shutdown() is idempotent — a second call leaves the manager state
unchanged — and after shutdown dequeue_job returns an empty result instead of
blocking (the wait loop's predicate is false once the flag is set, so blocked
and future callers alike fall through to the empty return). -/
theorem C5_shutdown_idempotent (m : PrintQueueManager) :
    m.shutdown.shutdown = m.shutdown ∧
    m.shutdown.dequeue_job = (m.shutdown, none) :=
  ⟨rfl, rfl⟩

theorem handle_parts (m : PrintQueueManager) (jobs : List JobRequest) :
    (m.handle_simultaneous_submissions jobs).2 =
      (jobs.foldl batchStep (m, ⟨0, 0⟩)).2 ∧
    (m.handle_simultaneous_submissions jobs).1.queue =
      (jobs.foldl batchStep (m, ⟨0, 0⟩)).1.queue ∧
    ∃ e : LogEntry, e.event = "batch_submit" ∧
      e.extra = ExtraData.batchData (jobs.foldl batchStep (m, ⟨0, 0⟩)).2.success
        (jobs.foldl batchStep (m, ⟨0, 0⟩)).2.failed ∧
      (m.handle_simultaneous_submissions jobs).1.history =
        (jobs.foldl batchStep (m, ⟨0, 0⟩)).1.history ++ [e] :=
  ⟨rfl, rfl, _, rfl, rfl, rfl⟩

/-- Claim C6: handle_simultaneous_submissions applies enqueue_job to each batch
entry in input order without rollback: with f free slots, exactly the first
min(n, f) entries are admitted (their ids join the queue) and the rest fail,
the returned counts are (min(n, f), n - min(n, f)), and exactly one
batch_submit event carrying the aggregate result is appended after all the
per-entry enqueue events. -/
theorem C6_batch (m : PrintQueueManager) (jobs : List JobRequest) :
    (m.handle_simultaneous_submissions jobs).2.success =
      min jobs.length (m.capacity - m.queue.length) ∧
    (m.handle_simultaneous_submissions jobs).2.failed =
      jobs.length - min jobs.length (m.capacity - m.queue.length) ∧
    ((m.handle_simultaneous_submissions jobs).1.queue.map PrintJob.job_id).Perm
      (m.queue.map PrintJob.job_id ++
        (jobs.take (m.capacity - m.queue.length)).map JobRequest.job_id) ∧
    (m.handle_simultaneous_submissions jobs).1.history.countP
        (fun e => e.event == "batch_submit") =
      m.history.countP (fun e => e.event == "batch_submit") + 1 ∧
    (m.handle_simultaneous_submissions jobs).1.history.getLast?.map
        (fun e => (e.event, e.extra)) =
      some ("batch_submit",
        ExtraData.batchData (m.handle_simultaneous_submissions jobs).2.success
          (m.handle_simultaneous_submissions jobs).2.failed) := by
  obtain ⟨h2, hq, e, hev, hex, hh⟩ := handle_parts m jobs
  have hs := batch_fold_spec jobs m 0 0
  obtain ⟨entries, hent, hall⟩ := hs.2.2.2
  have hcount0 : entries.countP (fun e => e.event == "batch_submit") = 0 := by
    rw [List.countP_eq_zero]
    intro x hx
    rw [hall x hx]
    decide
  refine ⟨?_, ?_, ?_, ?_, ?_⟩
  · rw [h2, hs.1, Nat.zero_add]
  · rw [h2, hs.2.1, Nat.zero_add]
  · rw [hq]
    exact hs.2.2.1
  · rw [hh, hent, List.countP_append, List.countP_append, hcount0]
    have h1 : List.countP (fun e => e.event == "batch_submit") [e] = 1 := by
      rw [List.countP_cons]
      simp [hev]
    rw [h1]
  · rw [hh, List.getLast?_concat]
    simp only [Option.map_some']
    rw [hev, hex, h2]

/-- Claim C7 counterexample: enqueue_job performs no priority validation; on a
fresh manager a job with priority -1 is accepted (the call returns true) and
the stored queue holds that job with its negative priority. -/
theorem C7_counterexample :
    ((PrintQueueManager.new 10 5 30).enqueue_job "u" "j" (-1)).2 = true ∧
    ((PrintQueueManager.new 10 5 30).enqueue_job "u" "j" (-1)).1.queue.map
      PrintJob.priority = [-1] :=
  ⟨rfl, rfl⟩

/-- Claim C7 amended: enqueue_job applies no priority validation at all — for
every priority value, negative ones included, the job is accepted whenever the
queue is below capacity, and it enters the store carrying that priority. -/
theorem C7_amended (m : PrintQueueManager) (user_id job_id : String)
    (priority : Int) (h : m.queue.length < m.capacity) :
    (m.enqueue_job user_id job_id priority).2 = true ∧
    ({ priority := priority, waiting_time := 0, user_id := user_id,
       job_id := job_id, status := JobStatus.PENDING } : PrintJob) ∈
      (m.enqueue_job user_id job_id priority).1.queue := by
  constructor
  · rw [enqueue_not_full user_id job_id priority h]
  · rw [enqueue_not_full user_id job_id priority h, log_event_queue]
    dsimp only
    refine (List.perm_insertionSort jobLeP _).mem_iff.mpr ?_
    simp

/-- Witness for C7 amended: a job of priority -5 on a fresh capacity-2 manager. -/
theorem C7_amended_witness :
    ((PrintQueueManager.new 2 5 30).enqueue_job "u" "j" (-5)).2 = true ∧
    ({ priority := -5, waiting_time := 0, user_id := "u", job_id := "j",
       status := JobStatus.PENDING } : PrintJob) ∈
      ((PrintQueueManager.new 2 5 30).enqueue_job "u" "j" (-5)).1.queue :=
  C7_amended _ "u" "j" (-5) (by decide)

/-- Claim C8 counterexample: in the end-to-end scenario (capacity=5,
aging_interval=3, expiry_time=10; enqueue doc1 and doc2, tick twice, dequeue,
batch-submit doc3 and doc4, tick five times, dequeue) the final logical clock
is 7, not 8: only the seven explicit ticks advance it. -/
theorem C8_counterexample :
    ((((((PrintQueueManager.new 5 3 10).enqueue_job "user1" "doc1" 2).1.enqueue_job
          "user2" "doc2" 1).1.tick.tick.dequeue_job).1.handle_simultaneous_submissions
          [⟨"user3", "doc3", 3⟩, ⟨"user4", "doc4", 0⟩]).1.run
        (List.replicate 5 Op.tick)).dequeue_job.1.current_time ≠ 8 := by
  decide

/-- Claim C8 amended: in that same scenario the first dequeue returns doc2, the
second dequeue returns doc4, the final active queue length is 2, and the final
logical clock value is 7. -/
theorem C8_amended :
    ((((((PrintQueueManager.new 5 3 10).enqueue_job "user1" "doc1" 2).1.enqueue_job
        "user2" "doc2" 1).1.tick.tick.dequeue_job).2.map PrintJob.job_id =
      some "doc2") ∧
    (((((((PrintQueueManager.new 5 3 10).enqueue_job "user1" "doc1" 2).1.enqueue_job
          "user2" "doc2" 1).1.tick.tick.dequeue_job).1.handle_simultaneous_submissions
          [⟨"user3", "doc3", 3⟩, ⟨"user4", "doc4", 0⟩]).1.run
        (List.replicate 5 Op.tick)).dequeue_job.2.map PrintJob.job_id =
      some "doc4") ∧
    (((((((PrintQueueManager.new 5 3 10).enqueue_job "user1" "doc1" 2).1.enqueue_job
          "user2" "doc2" 1).1.tick.tick.dequeue_job).1.handle_simultaneous_submissions
          [⟨"user3", "doc3", 3⟩, ⟨"user4", "doc4", 0⟩]).1.run
        (List.replicate 5 Op.tick)).dequeue_job.1.queue.length = 2) ∧
    (((((((PrintQueueManager.new 5 3 10).enqueue_job "user1" "doc1" 2).1.enqueue_job
          "user2" "doc2" 1).1.tick.tick.dequeue_job).1.handle_simultaneous_submissions
          [⟨"user3", "doc3", 3⟩, ⟨"user4", "doc4", 0⟩]).1.run
        (List.replicate 5 Op.tick)).dequeue_job.1.current_time = 7)) :=
  ⟨rfl, rfl, rfl, rfl⟩

/-- Claim C9, refuted: tick() is NOT free of indefinite suspension.  It holds
the single non-reentrant lock for its whole body and then calls
remove_expired_jobs (always) and apply_priority_aging (on aging ticks), each of
which acquires the same lock again, so every tick() call blocks forever; the
other entry points each acquire and release the lock once and do complete. -/
theorem C9_tick_deadlock :
    completes (tickLockOps false) 0 = false ∧
    completes (tickLockOps true) 0 = false ∧
    completes enqueueLockOps 0 = true ∧
    completes dequeueLockOps 0 = true ∧
    completes shutdownLockOps 0 = true ∧
    completes agingLockOps 0 = true ∧
    completes removeExpiredLockOps 0 = true := by
  decide

/-- Claim C10: once the shutdown flag is set, dequeue_job returns an empty
result even on a non-empty queue, and it removes and modifies nothing — the
state (queue, jobs, history) is returned unchanged. -/
theorem C10_shutdown_dequeue (m : PrintQueueManager) (h : m._shutdown = true) :
    m.dequeue_job = (m, none) :=
  dequeue_shutdown h

/-- Witness for C10 at a shut-down manager whose queue still holds one job. -/
theorem C10_shutdown_dequeue_witness :
    (((PrintQueueManager.new 10 5 30).enqueue_job "u" "j" 1).1.shutdown).dequeue_job =
      ((((PrintQueueManager.new 10 5 30).enqueue_job "u" "j" 1).1.shutdown), none) :=
  C10_shutdown_dequeue _ rfl
